import Mathlib

/-!
# Verification of `type-utilities-lib`: `retry` and the `Cache` decorator

Shallow embedding of the two runtime components of the repository:

* `retry` from `src/utils/index.ts` — bounded retry of a fallible async
  operation with a fixed delay between attempts;
* `Cache` from `src/decorators/index.ts` — a TTL-memoizing method decorator
  keyed by `` `${key}:${JSON.stringify(args)}` ``.

JavaScript values passed as arguments are modelled by a `JSON` inductive
(objects keep their fields in insertion order, exactly as `JSON.stringify`
sees them).  Thrown errors are modelled by `Except.error s` where `s` is the
string conversion of the thrown value (`` `${error}` ``).  Time is an `Int`
(`Date.now()` timestamps in ms); `ttl` and `delay` are `Int` so that negative
configuration values are representable.
-/

set_option maxRecDepth 4000

/-- A JavaScript value as `JSON.stringify` sees it.  Object fields are kept
in insertion order (for non-integer keys `JSON.stringify` serializes fields
in insertion order). -/
inductive JSON where
  | null : JSON
  | bool : Bool → JSON
  | num : Int → JSON
  | str : String → JSON
  | arr : List JSON → JSON
  | obj : List (String × JSON) → JSON

/-- `JSON.stringify` escaping of a string: backslash and double quote are
escaped; other characters of interest here are printable and pass through. -/
def escapeString (s : String) : String :=
  "\"" ++ String.join (s.data.map (fun c =>
    if c = '\\' then "\\\\"
    else if c = '"' then "\\\""
    else String.singleton c)) ++ "\""

mutual

/-- `JSON.stringify` on a single value. -/
def stringify : JSON → String
  | .null => "null"
  | .bool true => "true"
  | .bool false => "false"
  | .num n => toString n
  | .str s => escapeString s
  | .arr es => "[" ++ stringifyList es ++ "]"
  | .obj fs => "\x7b" ++ stringifyFields fs ++ "\x7d"

/-- Comma-joined serialization of array elements. -/
def stringifyList : List JSON → String
  | [] => ""
  | [x] => stringify x
  | x :: xs => stringify x ++ "," ++ stringifyList xs

/-- Comma-joined serialization of object fields, in insertion order. -/
def stringifyFields : List (String × JSON) → String
  | [] => ""
  | [(k, v)] => escapeString k ++ ":" ++ stringify v
  | (k, v) :: fs => escapeString k ++ ":" ++ stringify v ++ "," ++ stringifyFields fs

end

/-- Lexicographic comparison of strings as character lists (an arbitrary but
fixed total order on keys, used only to canonicalize field order). -/
def keyLe : List Char → List Char → Bool
  | [], _ => true
  | _ :: _, [] => false
  | a :: as, b :: bs =>
    if a.toNat < b.toNat then true
    else if b.toNat < a.toNat then false
    else keyLe as bs

/-- Insertion of a field into a key-sorted field list (by string key). -/
def insertField (f : String × JSON) : List (String × JSON) → List (String × JSON)
  | [] => [f]
  | g :: gs => if keyLe f.1.data g.1.data then f :: g :: gs else g :: insertField f gs

/-- Insertion sort of object fields by key. -/
def sortFields : List (String × JSON) → List (String × JSON)
  | [] => []
  | f :: fs => insertField f (sortFields fs)

mutual

/-- Canonical form of a JSON value: object fields are recursively sorted by
key, so that two structures are deep-equal (`===`-style structural equality
up to field order) exactly when their canonical forms coincide.  Modelled
from the spec: the spec's "deep-equal argument structures" compares objects
as unordered key/value collections. -/
def canon : JSON → JSON
  | .null => .null
  | .bool b => .bool b
  | .num n => .num n
  | .str s => .str s
  | .arr es => .arr (canonList es)
  | .obj fs => .obj (sortFields (canonFields fs))

/-- `canon` mapped over array elements. -/
def canonList : List JSON → List JSON
  | [] => []
  | x :: xs => canon x :: canonList xs

/-- `canon` mapped over object field values. -/
def canonFields : List (String × JSON) → List (String × JSON)
  | [] => []
  | (k, v) :: fs => (k, canon v) :: canonFields fs

end

/-- Modelled from the spec: two argument structures are deep-equal when they
agree up to the insertion order of object fields. -/
def deepEqual (a b : JSON) : Prop := canon a = canon b

/-- Deep equality of whole argument lists. -/
def deepEqualArgs (a b : List JSON) : Prop := canonList a = canonList b

/-!
## `retry` (src/utils/index.ts)

```ts
export async function retry<T>(fn, retries = 3, delay = 1000): Promise<T> {
  for (let i = 0; i < retries; i++) {
    try { return await fn(); }
    catch (error) {
      if (i === retries - 1) throw new Error(`[ERROR]: ${error}`);
      await new Promise((resolve) => setTimeout(resolve, delay));
    }
  }
  throw new Error("Falha inesperada no retry");
}
```

`fn` is modelled as a map from the 0-based invocation index to its outcome
(`Except.error s` means the i-th call rejected with a value whose string
conversion is `s`).  The run produces a trace of observable events — each
invocation of `fn` and each `setTimeout` wait — together with the final
outcome: `.ok v`, or `.error m` for a thrown `Error` with message `m`.
-/

/-- An observable event of a `retry` run: an invocation of `fn` (with its
0-based index) or a `setTimeout` wait of the given duration. -/
inductive Ev where
  | call : Nat → Ev
  | wait : Int → Ev
deriving DecidableEq, Repr

/-- Message of the error thrown on the last failing attempt:
`` new Error(`[ERROR]: ${error}`) ``. -/
def wrapError (s : String) : String := "[ERROR]: " ++ s

/-- Message of the fall-through error after the loop. -/
def falhaInesperada : String := "Falha inesperada no retry"

/-- The loop of `retry`, by structural recursion on `gas`, the number of
iterations still allowed by the guard `i < retries` (so `gas = retries - i`;
the guard fails exactly when `gas = 0`).  `i` is the current 0-based loop
index; the test `i === retries - 1` is kept on the actual `retries` bound.
Returns the event trace from this point and the final outcome. -/
def retryLoop {α : Type} (fn : Nat → Except String α) (retries : Nat) (delay : Int) :
    Nat → Nat → List Ev × Except String α
  | 0, _ => ([], .error falhaInesperada)
  | gas + 1, i =>
    match fn i with
    | .ok v => ([.call i], .ok v)
    | .error e =>
      if i = retries - 1 then
        ([.call i], .error (wrapError e))
      else
        (.call i :: .wait delay :: (retryLoop fn retries delay gas (i + 1)).1,
         (retryLoop fn retries delay gas (i + 1)).2)

/-- `retry fn retries delay`: the whole run.  `retries : Int` because the
TypeScript parameter is an arbitrary number; for `retries ≤ 0` the loop body
never runs (`0 < retries` fails), which `Int.toNat` reproduces, and for
`retries ≥ 1` the `Int` and `Nat` readings of `i === retries - 1` agree. -/
def retry {α : Type} (fn : Nat → Except String α) (retries : Int) (delay : Int) :
    List Ev × Except String α :=
  retryLoop fn retries.toNat delay retries.toNat 0

/-- Number of invocations of `fn` recorded in a trace. -/
def numCalls (evs : List Ev) : Nat :=
  (evs.filter (fun e => match e with | .call _ => true | .wait _ => false)).length

/-- `true` exactly when an outcome is a rejection. -/
def isErr {α : Type} : Except String α → Bool
  | .error _ => true
  | .ok _ => false

/-- A trace is well-spaced for `delay` when it is an alternation
`call, wait, call, wait, …, call` (possibly empty): every wait lies strictly
between two invocations, equals `delay`, and no wait trails the last
invocation. -/
def wellSpaced (delay : Int) : List Ev → Bool
  | [] => true
  | [Ev.call _] => true
  | Ev.call _ :: Ev.wait d :: rest =>
    (match rest with | Ev.call _ :: _ => true | _ => false)
      && (d == delay) && wellSpaced delay rest
  | _ => false

/-!
## `Cache` (src/decorators/index.ts)

```ts
export function Cache(ttl: number) {
  const cache = new Map<string, { valor: any; expira: number }>();
  return function (target, key, descriptor) {
    const original = descriptor.value;
    descriptor.value = function (...args: any[]) {
      const chaveCache = `${key}:${JSON.stringify(args)}`;
      if (cache.has(chaveCache)) {
        const item = cache.get(chaveCache);
        if (item && Date.now() < item.expira) {
          return item.valor;
        }
        cache.delete(chaveCache);
      }
      const resultado = original.apply(this, args);
      cache.set(chaveCache, { valor: resultado, expira: Date.now() + ttl });
      return resultado;
    };
  };
}
```

One invocation of the wrapped method is `cacheInvoke`: it takes the map
state and the current `Date.now()` and returns the outcome, the new map
state, and whether `original` was invoked.  `original.apply(this, args)` is
modelled as `original self args : Except String Val`; `.error e` is a
synchronous throw (an `async` method never throws synchronously — it returns
a rejected promise), and a `Val` is either a plain value or a promise handle
(identity plus eventual outcome), since the decorator stores and returns
whatever `original` produced without awaiting it.  The receiver `this` is a
`Nat` instance identifier; note that `chaveCache` does not depend on it.
-/

/-- A value produced (and possibly cached) by a wrapped method: a plain
synchronous value, or a promise handle with an identity and the outcome it
eventually settles to.  The decorator never awaits: it stores and returns
the handle itself. -/
inductive Val where
  | plain : JSON → Val
  | prom : Nat → Except String JSON → Val

/-- A stored cache entry: `{ valor, expira }`. -/
structure CacheEntry where
  valor : Val
  expira : Int

/-- The decorator's `Map<string, {valor, expira}>`, as an association list
with the `Map` lookup/update semantics. -/
def CacheMap : Type := List (String × CacheEntry)

/-- `cache.has(k)`. -/
def mapHas (m : CacheMap) (k : String) : Bool :=
  (List.any m (fun p => p.1 == k))

/-- `cache.get(k)`. -/
def mapGet (m : CacheMap) (k : String) : Option CacheEntry :=
  (List.find? (fun p => p.1 == k) m).map (fun p => p.2)

/-- `cache.delete(k)`. -/
def mapDelete (m : CacheMap) (k : String) : CacheMap :=
  List.filter (fun p => p.1 != k) m

/-- `cache.set(k, v)`: overwrite in place, or append a new entry. -/
def mapSet (m : CacheMap) (k : String) (v : CacheEntry) : CacheMap :=
  match m with
  | [] => [(k, v)]
  | (k', v') :: rest => if k' == k then (k, v) :: rest else (k', v') :: mapSet rest k v

/-- `` `${key}:${JSON.stringify(args)}` `` — the cache key: the decorated
method's name and the serialization of the argument array. -/
def chaveCache (key : String) (args : List JSON) : String :=
  key ++ ":" ++ stringify (.arr args)

/-- Result of one invocation of the `Cache`-wrapped method: the value
returned (or error thrown), the map afterwards, and whether the underlying
method was invoked. -/
structure InvokeResult where
  result : Except String Val
  cache : CacheMap
  opCalled : Bool

/-- One invocation of the wrapped method with receiver `self`, map state
`cache` and current time `now`, following the decorator body line by line. -/
def cacheInvoke (ttl : Int) (key : String) (original : Nat → List JSON → Except String Val)
    (self : Nat) (cache : CacheMap) (now : Int) (args : List JSON) : InvokeResult :=
  let chave := chaveCache key args
  -- the code after the `has` block: invoke `original`, store on (sync) success
  let invoke : CacheMap → InvokeResult := fun c =>
    match original self args with
    | .error e => ⟨.error e, c, true⟩
    | .ok resultado => ⟨.ok resultado, mapSet c chave ⟨resultado, now + ttl⟩, true⟩
  if mapHas cache chave then
    match mapGet cache chave with
    | some item =>
      if now < item.expira then ⟨.ok item.valor, cache, false⟩
      else invoke (mapDelete cache chave)
    | none => invoke (mapDelete cache chave)
  else invoke cache

/-- Modelled from the spec: "if `op` fails" — the invocation either throws
synchronously, or returns a promise that is (eventually) rejected.  Used to
state the claim that a failed computation is never cached. -/
def opFails : Except String Val → Bool
  | .error _ => true
  | .ok (.prom _ (.error _)) => true
  | .ok (.prom _ (.ok _)) => false
  | .ok (.plain _) => false


lemma isErr_true_iff {α : Type} (x : Except String α) :
    isErr x = true ↔ ∃ e, x = .error e := by
  cases x <;> simp [isErr]

lemma numCalls_call (i : Nat) (l : List Ev) :
    numCalls (Ev.call i :: l) = numCalls l + 1 := by
  simp [numCalls, List.filter]

lemma numCalls_wait (d : Int) (l : List Ev) :
    numCalls (Ev.wait d :: l) = numCalls l := by
  simp [numCalls, List.filter]

lemma wrapError_ne_falha (e : String) : wrapError e ≠ falhaInesperada := by
  intro h
  have h2 : (wrapError e).data = falhaInesperada.data := by rw [h]
  rw [wrapError, falhaInesperada, String.data_append] at h2
  simp at h2

/-- If every attempt up to the bound fails, the loop performs one call per
remaining iteration and ends with the wrapped last error. -/
lemma retryLoop_all_fail {α : Type} (fn : Nat → Except String α) (retries : Nat) (delay : Int)
    (e : String) (hlast : fn (retries - 1) = .error e)
    (hfail : ∀ j, j < retries → isErr (fn j) = true) :
    ∀ gas i, gas + i = retries → 0 < gas →
      numCalls (retryLoop fn retries delay gas i).1 = gas ∧
      (retryLoop fn retries delay gas i).2 = .error (wrapError e) := by
  intro gas
  induction gas with
  | zero => intro i _ h0; exact absurd h0 (by omega)
  | succ g ih =>
    intro i hinv _
    have hi : i < retries := by omega
    obtain ⟨ei, hei⟩ := (isErr_true_iff (fn i)).mp (hfail i hi)
    by_cases hlq : i = retries - 1
    · have hg : g = 0 := by omega
      subst hg
      have hee : ei = e := by
        rw [hlq] at hei
        rw [hei] at hlast
        exact Except.error.inj hlast
      subst hee
      simp [retryLoop, hei, if_pos hlq, numCalls_call, numCalls]
    · have hg : 0 < g := by omega
      have ihr := ih (i + 1) (by omega) hg
      simp only [retryLoop, hei, if_neg hlq]
      exact ⟨by rw [numCalls_call, numCalls_wait, ihr.1], ihr.2⟩

/-- If every attempt before index `j` fails and attempt `j` succeeds, the
loop started at `i ≤ j` performs `j - i + 1` calls, all with index `≤ j`,
and returns the success. -/
lemma retryLoop_succeeds {α : Type} (fn : Nat → Except String α) (retries : Nat) (delay : Int)
    (j : Nat) (v : α) (hj : j < retries) (hok : fn j = .ok v)
    (hfail : ∀ l, l < j → isErr (fn l) = true) :
    ∀ gas i, gas + i = retries → i ≤ j →
      numCalls (retryLoop fn retries delay gas i).1 = j - i + 1 ∧
      (retryLoop fn retries delay gas i).2 = .ok v ∧
      ∀ m, Ev.call m ∈ (retryLoop fn retries delay gas i).1 → m ≤ j := by
  intro gas
  induction gas with
  | zero => intro i hinv hij; exact absurd hj (by omega)
  | succ g ih =>
    intro i hinv hij
    by_cases hq : i = j
    · subst hq
      simp only [retryLoop, hok]
      refine ⟨by simp [numCalls_call, numCalls], by simp, ?_⟩
      intro m hm
      simp only [List.mem_singleton, Ev.call.injEq] at hm
      omega
    · have hii : i < j := by omega
      obtain ⟨ei, hei⟩ := (isErr_true_iff (fn i)).mp (hfail i hii)
      have hlq : i ≠ retries - 1 := by omega
      have ihr := ih (i + 1) (by omega) (by omega)
      simp only [retryLoop, hei, if_neg hlq]
      refine ⟨?_, ihr.2.1, ?_⟩
      · rw [numCalls_call, numCalls_wait, ihr.1]; omega
      · intro m hm
        simp only [List.mem_cons] at hm
        rcases hm with hm | hm | hm
        · rw [Ev.call.injEq] at hm; omega
        · exact absurd hm (by simp)
        · exact ihr.2.2 m hm

/-- Every trace the loop produces is well-spaced, and a run with at least
one remaining iteration starts with the call of the current index. -/
lemma retryLoop_wellSpaced {α : Type} (fn : Nat → Except String α) (retries : Nat) (delay : Int) :
    ∀ gas i, gas + i = retries →
      wellSpaced delay (retryLoop fn retries delay gas i).1 = true ∧
      (0 < gas → ∃ l, (retryLoop fn retries delay gas i).1 = Ev.call i :: l) := by
  intro gas
  induction gas with
  | zero => intro i _; exact ⟨rfl, fun h => absurd h (by omega)⟩
  | succ g ih =>
    intro i hinv
    cases hfn : fn i with
    | ok v => exact ⟨by simp [retryLoop, hfn, wellSpaced], fun _ => ⟨[], by simp [retryLoop, hfn]⟩⟩
    | error e =>
      by_cases hlq : i = retries - 1
      · exact ⟨by simp [retryLoop, hfn, if_pos hlq, wellSpaced],
          fun _ => ⟨[], by simp [retryLoop, hfn, if_pos hlq]⟩⟩
      · have hg : 0 < g := by omega
        have ihr := ih (i + 1) (by omega)
        obtain ⟨l, hl⟩ := ihr.2 hg
        refine ⟨?_, fun _ => ⟨Ev.wait delay :: (retryLoop fn retries delay g (i + 1)).1,
          by simp only [retryLoop, hfn, if_neg hlq]⟩⟩
        simp only [retryLoop, hfn, if_neg hlq, wellSpaced, hl]
        simp [← hl, ihr.1]

/-- With at least one remaining iteration and the invariant `gas + i =
retries`, the loop ends in a success or in the wrapped error of the last
attempt — never in the fall-through error. -/
lemma retryLoop_outcome {α : Type} (fn : Nat → Except String α) (retries : Nat) (delay : Int) :
    ∀ gas i, gas + i = retries → 0 < gas →
      (∃ v, (retryLoop fn retries delay gas i).2 = .ok v) ∨
      (∃ e, fn (retries - 1) = .error e ∧
        (retryLoop fn retries delay gas i).2 = .error (wrapError e)) := by
  intro gas
  induction gas with
  | zero => intro i _ h0; exact absurd h0 (by omega)
  | succ g ih =>
    intro i hinv _
    cases hfn : fn i with
    | ok v => exact .inl ⟨v, by simp [retryLoop, hfn]⟩
    | error e =>
      by_cases hlq : i = retries - 1
      · exact .inr ⟨e, by rw [← hlq]; exact hfn, by simp [retryLoop, hfn, if_pos hlq]⟩
      · have hg : 0 < g := by omega
        have ihr := ih (i + 1) (by omega) hg
        rcases ihr with ⟨v, hv⟩ | ⟨e2, he2, hv⟩
        · exact .inl ⟨v, by simp only [retryLoop, hfn, if_neg hlq]; exact hv⟩
        · exact .inr ⟨e2, he2, by simp only [retryLoop, hfn, if_neg hlq]; exact hv⟩

/-!
## Sanity checks against the repository's own test scenarios
-/

example : retry (fun _ => (.error "Error: Erro Fatal" : Except String String)) 3 10 =
    ([.call 0, .wait 10, .call 1, .wait 10, .call 2],
     .error "[ERROR]: Error: Erro Fatal") := by rfl

example : retry (fun i => if i = 0 then .error "Error: Falha 1" else .ok "Sucesso na 2") 3 10 =
    ([.call 0, .wait 10, .call 1], .ok "Sucesso na 2") := by rfl

example : retry (fun _ => (.ok "Sucesso" : Except String String)) 3 10 =
    ([.call 0], .ok "Sucesso") := by rfl

example : retry (fun _ => (.ok "x" : Except String String)) (-2) 10 =
    ([], .error falhaInesperada) := by rfl

example : stringify (.obj [("a", .num 1), ("b", .num 2)]) = "\x7b\"a\":1,\"b\":2\x7d" := by rfl

example : deepEqual (.obj [("a", .num 1), ("b", .num 2)])
    (.obj [("b", .num 2), ("a", .num 1)]) := by rfl

/-!
## Claims about `retry`
-/

/-- **C3.** For every `N ≥ 1`, if the operation fails on attempts `1..N`,
then `retry` with `retries = N` invokes the operation exactly `N` times and
throws a failure wrapping the error of the `N`-th (last) call. -/
theorem retry_all_fail_calls_N_wraps_last {α : Type} (fn : Nat → Except String α)
    (N delay : Int) (e : String)
    (hN : 1 ≤ N)
    (hfail : ∀ j, j < N.toNat → isErr (fn j) = true)
    (hlast : fn (N.toNat - 1) = .error e) :
    (numCalls (retry fn N delay).1 : Int) = N ∧
    (retry fn N delay).2 = .error (wrapError e) := by
  have h := retryLoop_all_fail fn N.toNat delay e hlast hfail N.toNat 0 (by omega) (by omega)
  simp only [retry]
  refine ⟨?_, h.2⟩
  rw [h.1]
  omega

/-- Witness for the C3 theorem: the repository's own test scenario — three
attempts, all rejecting with `Error("Erro Fatal")`. -/
theorem retry_all_fail_calls_N_wraps_last_witness :
    (numCalls (retry (fun _ => (.error "Error: Erro Fatal" : Except String String)) 3 10).1 : Int)
      = 3 ∧
    (retry (fun _ => (.error "Error: Erro Fatal" : Except String String)) 3 10).2 =
      .error (wrapError "Error: Erro Fatal") :=
  retry_all_fail_calls_N_wraps_last (fun _ => .error "Error: Erro Fatal") 3 10 "Error: Erro Fatal"
    (by decide) (by decide) rfl

/-- **C4.** For every `N ≥ 1` and `1 ≤ k ≤ N`, if the operation fails on
attempts `1..k-1` and succeeds on attempt `k`, then `retry` with
`retries = N` invokes the operation exactly `k` times, returns the success,
and performs no `(k+1)`-th call (every recorded call has 0-based index
`< k`). -/
theorem retry_success_at_k_calls_k {α : Type} (fn : Nat → Except String α)
    (N delay : Int) (k : Nat) (v : α)
    (hk1 : 1 ≤ k) (hkN : (k : Int) ≤ N)
    (hfail : ∀ l, l < k - 1 → isErr (fn l) = true)
    (hok : fn (k - 1) = .ok v) :
    numCalls (retry fn N delay).1 = k ∧
    (retry fn N delay).2 = .ok v ∧
    ∀ m, Ev.call m ∈ (retry fn N delay).1 → m < k := by
  have hj : k - 1 < N.toNat := by omega
  have h := retryLoop_succeeds fn N.toNat delay (k - 1) v hj hok hfail N.toNat 0 (by omega)
    (by omega)
  simp only [retry]
  refine ⟨?_, h.2.1, ?_⟩
  · rw [h.1]; omega
  · intro m hm
    have := h.2.2 m hm
    omega

/-- Witness for the C4 theorem: the repository's own test scenario — one
rejection, then success on the second of three allowed attempts. -/
theorem retry_success_at_k_calls_k_witness :
    numCalls (retry (fun i => if i = 0 then .error "Error: Falha 1" else .ok "Sucesso na 2")
      3 10).1 = 2 ∧
    (retry (fun i => if i = 0 then .error "Error: Falha 1" else .ok "Sucesso na 2") 3 10).2 =
      .ok "Sucesso na 2" ∧
    ∀ m, Ev.call m ∈ (retry (fun i => if i = 0 then .error "Error: Falha 1"
      else .ok "Sucesso na 2") 3 10).1 → m < 2 :=
  retry_success_at_k_calls_k (fun i => if i = 0 then .error "Error: Falha 1"
    else .ok "Sucesso na 2") 3 10 2 "Sucesso na 2" (by decide) (by decide) (by decide) rfl

/-- **C7.** `retry` throws its internal fall-through error
(`"Falha inesperada no retry"`) exactly when `retries ≤ 0` — immediately,
with the operation never invoked (empty trace) — and for every
`retries ≥ 1` that error is unreachable: the run ends in a success or in
the wrapped error of the last attempt. -/
theorem retry_internal_error_iff_nonpositive {α : Type} (fn : Nat → Except String α)
    (retries delay : Int) :
    (retries ≤ 0 → retry fn retries delay = ([], .error falhaInesperada)) ∧
    (1 ≤ retries →
      (retry fn retries delay).2 ≠ .error falhaInesperada ∧
      ((∃ v, (retry fn retries delay).2 = .ok v) ∨
       (∃ e, fn (retries.toNat - 1) = .error e ∧
         (retry fn retries delay).2 = .error (wrapError e)))) := by
  constructor
  · intro h
    have h0 : retries.toNat = 0 := by omega
    simp only [retry, h0]
    rfl
  · intro h
    have hout := retryLoop_outcome fn retries.toNat delay retries.toNat 0 (by omega) (by omega)
    simp only [retry]
    refine ⟨?_, hout⟩
    rcases hout with ⟨v, hv⟩ | ⟨e, _, hv⟩ <;> rw [hv]
    · simp
    · intro hc
      exact wrapError_ne_falha e (Except.error.inj hc)

/-- Witness for the C7 theorem: `retries = -1` throws the internal error at
once; `retries = 2` can never produce it. -/
theorem retry_internal_error_iff_nonpositive_witness :
    retry (fun _ => (.ok 7 : Except String Nat)) (-1) 5 = ([], .error falhaInesperada) ∧
    (retry (fun _ => (.ok 7 : Except String Nat)) 2 5).2 ≠ .error falhaInesperada :=
  ⟨(retry_internal_error_iff_nonpositive (fun _ => (.ok 7 : Except String Nat)) (-1) 5).1
      (by decide),
   ((retry_internal_error_iff_nonpositive (fun _ => (.ok 7 : Except String Nat)) 2 5).2
      (by decide)).1⟩

/-- **C8.** In every run of `retry`, the trace of observable events is an
alternation `call, wait, call, …, call`: a wait of exactly the configured
delay occurs between two consecutive failing attempts (before the next
attempt begins), and no wait follows the final attempt, whether it succeeds
or fails. -/
theorem retry_wait_between_attempts_only {α : Type} (fn : Nat → Except String α)
    (retries delay : Int) :
    wellSpaced delay (retry fn retries delay).1 = true := by
  have h := retryLoop_wellSpaced fn retries.toNat delay retries.toNat 0 (by omega)
  simpa only [retry] using h.1

/-!
## Lemmas about the cache map and one wrapped invocation
-/

lemma mapGet_mapSet_self (m : CacheMap) (k : String) (v : CacheEntry) :
    mapGet (mapSet m k v) k = some v := by
  induction m with
  | nil => simp [mapSet, mapGet]
  | cons p rest ih =>
    obtain ⟨k2, v2⟩ := p
    by_cases h : k2 = k
    · simp [mapSet, mapGet, h]
    · simp only [mapGet] at ih
      simp [mapSet, mapGet, h, ih]

lemma mapGet_mapDelete_self (m : CacheMap) (k : String) :
    mapGet (mapDelete m k) k = none := by
  induction m with
  | nil => simp [mapDelete, mapGet]
  | cons p rest ih =>
    obtain ⟨k2, v2⟩ := p
    by_cases h : k2 = k
    · simp only [mapGet, mapDelete] at ih ⊢
      simp [h, ih]
    · simp only [mapGet, mapDelete] at ih ⊢
      simp [h, ih]

lemma mapHas_false_iff (m : CacheMap) (k : String) :
    mapHas m k = false ↔ mapGet m k = none := by
  induction m with
  | nil => simp [mapHas, mapGet]
  | cons p rest ih =>
    obtain ⟨k2, v2⟩ := p
    by_cases h : k2 = k
    · simp [mapHas, mapGet, h]
    · simp [mapHas, mapGet, h, ← ih]

lemma mapHas_true_of_get (m : CacheMap) (k : String) (item : CacheEntry)
    (h : mapGet m k = some item) : mapHas m k = true := by
  by_contra hc
  rw [Bool.not_eq_true, mapHas_false_iff] at hc
  rw [h] at hc
  exact Option.noConfusion hc

lemma cacheInvoke_hit (ttl : Int) (key : String)
    (original : Nat → List JSON → Except String Val) (self : Nat)
    (cache : CacheMap) (now : Int) (args : List JSON) (item : CacheEntry)
    (hget : mapGet cache (chaveCache key args) = some item)
    (hfresh : now < item.expira) :
    cacheInvoke ttl key original self cache now args = ⟨.ok item.valor, cache, false⟩ := by
  have hhas := mapHas_true_of_get _ _ _ hget
  simp [cacheInvoke, hhas, hget, hfresh]

lemma cacheInvoke_miss_ok (ttl : Int) (key : String)
    (original : Nat → List JSON → Except String Val) (self : Nat)
    (cache : CacheMap) (now : Int) (args : List JSON) (v : Val)
    (hmiss : mapGet cache (chaveCache key args) = none)
    (hok : original self args = .ok v) :
    cacheInvoke ttl key original self cache now args =
      ⟨.ok v, mapSet cache (chaveCache key args) ⟨v, now + ttl⟩, true⟩ := by
  have hhas := (mapHas_false_iff _ _).mpr hmiss
  simp [cacheInvoke, hhas, hok]

lemma cacheInvoke_miss_err (ttl : Int) (key : String)
    (original : Nat → List JSON → Except String Val) (self : Nat)
    (cache : CacheMap) (now : Int) (args : List JSON) (e : String)
    (hmiss : mapGet cache (chaveCache key args) = none)
    (herr : original self args = .error e) :
    cacheInvoke ttl key original self cache now args = ⟨.error e, cache, true⟩ := by
  have hhas := (mapHas_false_iff _ _).mpr hmiss
  simp [cacheInvoke, hhas, herr]

lemma cacheInvoke_expired_ok (ttl : Int) (key : String)
    (original : Nat → List JSON → Except String Val) (self : Nat)
    (cache : CacheMap) (now : Int) (args : List JSON) (item : CacheEntry) (v : Val)
    (hget : mapGet cache (chaveCache key args) = some item)
    (hexp : item.expira ≤ now)
    (hok : original self args = .ok v) :
    cacheInvoke ttl key original self cache now args =
      ⟨.ok v, mapSet (mapDelete cache (chaveCache key args)) (chaveCache key args)
        ⟨v, now + ttl⟩, true⟩ := by
  have hhas := mapHas_true_of_get _ _ _ hget
  have hnf : ¬ now < item.expira := by omega
  simp [cacheInvoke, hhas, hget, hnf, hok]

lemma cacheInvoke_expired_err (ttl : Int) (key : String)
    (original : Nat → List JSON → Except String Val) (self : Nat)
    (cache : CacheMap) (now : Int) (args : List JSON) (item : CacheEntry) (e : String)
    (hget : mapGet cache (chaveCache key args) = some item)
    (hexp : item.expira ≤ now)
    (herr : original self args = .error e) :
    cacheInvoke ttl key original self cache now args =
      ⟨.error e, mapDelete cache (chaveCache key args), true⟩ := by
  have hhas := mapHas_true_of_get _ _ _ hget
  have hnf : ¬ now < item.expira := by omega
  simp [cacheInvoke, hhas, hget, hnf, herr]

/-!
## Claims about the `Cache` decorator
-/

/-- **C5** (amended).  A second call whose arguments have the *same
serialization* (in particular, structurally identical arguments), made while
`now < expiresAt` of the entry stored by a first successful call, invokes
the underlying operation zero further times (exactly once in total) and
returns the identical stored value — a stored pending-result handle is
returned as-is, not re-awaited or re-wrapped.  (As originally stated over
all *deep-equal* arguments the claim fails: see the counterexample, where a
field-order change alters the key.) -/
theorem cache_hit_same_key_within_ttl (ttl : Int) (key : String)
    (original : Nat → List JSON → Except String Val) (self : Nat)
    (cache : CacheMap) (now now2 : Int) (args args2 : List JSON) (v : Val)
    (hmiss : mapGet cache (chaveCache key args) = none)
    (hok : original self args = .ok v)
    (hkey : chaveCache key args2 = chaveCache key args)
    (hfresh : now2 < now + ttl) :
    (cacheInvoke ttl key original self cache now args).result = .ok v ∧
    (cacheInvoke ttl key original self cache now args).opCalled = true ∧
    cacheInvoke ttl key original self
        (cacheInvoke ttl key original self cache now args).cache now2 args2 =
      ⟨.ok v, (cacheInvoke ttl key original self cache now args).cache, false⟩ := by
  have h1 := cacheInvoke_miss_ok ttl key original self cache now args v hmiss hok
  rw [h1]
  refine ⟨rfl, rfl, ?_⟩
  have hget2 : mapGet (mapSet cache (chaveCache key args) ⟨v, now + ttl⟩)
      (chaveCache key args2) = some ⟨v, now + ttl⟩ := by
    rw [hkey]; exact mapGet_mapSet_self _ _ _
  exact cacheInvoke_hit ttl key original self _ now2 args2 ⟨v, now + ttl⟩ hget2 hfresh

/-- Witness for the C5 theorem: the spec's concrete scenario — `ttl = 1000`,
first call with argument `5` at `t = 0` returns `10`; the second call at
`t = 500` returns the stored `10` without invoking the operation. -/
theorem cache_hit_same_key_within_ttl_witness :
    (cacheInvoke 1000 "m" (fun _ _ => .ok (.plain (.num 10))) 0 [] 0 [.num 5]).result =
      .ok (.plain (.num 10)) ∧
    (cacheInvoke 1000 "m" (fun _ _ => .ok (.plain (.num 10))) 0 [] 0 [.num 5]).opCalled = true ∧
    cacheInvoke 1000 "m" (fun _ _ => .ok (.plain (.num 10))) 0
        (cacheInvoke 1000 "m" (fun _ _ => .ok (.plain (.num 10))) 0 [] 0 [.num 5]).cache
        500 [.num 5] =
      ⟨.ok (.plain (.num 10)),
       (cacheInvoke 1000 "m" (fun _ _ => .ok (.plain (.num 10))) 0 [] 0 [.num 5]).cache,
       false⟩ :=
  cache_hit_same_key_within_ttl 1000 "m" (fun _ _ => .ok (.plain (.num 10))) 0 [] 0 500
    [.num 5] [.num 5] (.plain (.num 10)) rfl rfl rfl (by decide)

/-- **C5** counterexample.  The claim quantifies over *deep-equal* argument
structures, but the key is `JSON.stringify` of the arguments, which is
sensitive to object-field insertion order: with deep-equal arguments whose
fields were inserted in different orders, the second call within the TTL
misses and invokes the underlying operation a second time. -/
theorem cache_deepEqual_second_call_reinvokes :
    deepEqualArgs [.obj [("a", .num 1), ("b", .num 2)]]
      [.obj [("b", .num 2), ("a", .num 1)]] ∧
    (cacheInvoke 1000 "m" (fun _ _ => .ok (.plain (.num 10))) 0 [] 0
        [.obj [("a", .num 1), ("b", .num 2)]]).opCalled = true ∧
    mapGet (cacheInvoke 1000 "m" (fun _ _ => .ok (.plain (.num 10))) 0 [] 0
        [.obj [("a", .num 1), ("b", .num 2)]]).cache
        (chaveCache "m" [.obj [("a", .num 1), ("b", .num 2)]]) =
      some ⟨.plain (.num 10), 1000⟩ ∧
    (500 : Int) < 1000 ∧
    (cacheInvoke 1000 "m" (fun _ _ => .ok (.plain (.num 10))) 0
        (cacheInvoke 1000 "m" (fun _ _ => .ok (.plain (.num 10))) 0 [] 0
          [.obj [("a", .num 1), ("b", .num 2)]]).cache 500
        [.obj [("b", .num 2), ("a", .num 1)]]).opCalled = true :=
  ⟨rfl, rfl, rfl, by decide, rfl⟩

/-- **C6** (amended).  A call whose arguments have the *same serialization*
as a stored entry, made when `now ≥ expiresAt`, removes the stale entry,
invokes the underlying operation again and (when it returns normally)
stores a new entry whose expiry is refreshed to `now + ttl`.  (As originally
stated over all *deep-equal* arguments the claim fails: a field-order change
alters the key and the stale entry is then not removed; see the
counterexample.) -/
theorem cache_expired_reinvokes_and_refreshes (ttl : Int) (key : String)
    (original : Nat → List JSON → Except String Val) (self : Nat)
    (cache : CacheMap) (now : Int) (args : List JSON) (item : CacheEntry) (v : Val)
    (hget : mapGet cache (chaveCache key args) = some item)
    (hexp : item.expira ≤ now)
    (hok : original self args = .ok v) :
    (cacheInvoke ttl key original self cache now args).opCalled = true ∧
    (cacheInvoke ttl key original self cache now args).result = .ok v ∧
    (cacheInvoke ttl key original self cache now args).cache =
      mapSet (mapDelete cache (chaveCache key args)) (chaveCache key args) ⟨v, now + ttl⟩ ∧
    mapGet (cacheInvoke ttl key original self cache now args).cache (chaveCache key args) =
      some ⟨v, now + ttl⟩ := by
  have h := cacheInvoke_expired_ok ttl key original self cache now args item v hget hexp hok
  rw [h]
  exact ⟨rfl, rfl, rfl, mapGet_mapSet_self _ _ _⟩

/-- Witness for the C6 theorem: the spec's concrete scenario — the entry for
argument `5` expired at `t = 1000`; the call at `t = 1500` re-invokes the
operation and stores expiry `2500`. -/
theorem cache_expired_reinvokes_and_refreshes_witness :
    (cacheInvoke 1000 "m" (fun _ _ => .ok (.plain (.num 10))) 0
        [(chaveCache "m" [.num 5], ⟨.plain (.num 10), 1000⟩)] 1500 [.num 5]).opCalled = true ∧
    (cacheInvoke 1000 "m" (fun _ _ => .ok (.plain (.num 10))) 0
        [(chaveCache "m" [.num 5], ⟨.plain (.num 10), 1000⟩)] 1500 [.num 5]).result =
      .ok (.plain (.num 10)) ∧
    (cacheInvoke 1000 "m" (fun _ _ => .ok (.plain (.num 10))) 0
        [(chaveCache "m" [.num 5], ⟨.plain (.num 10), 1000⟩)] 1500 [.num 5]).cache =
      mapSet (mapDelete [(chaveCache "m" [.num 5], ⟨.plain (.num 10), 1000⟩)]
        (chaveCache "m" [.num 5])) (chaveCache "m" [.num 5]) ⟨.plain (.num 10), 2500⟩ ∧
    mapGet (cacheInvoke 1000 "m" (fun _ _ => .ok (.plain (.num 10))) 0
        [(chaveCache "m" [.num 5], ⟨.plain (.num 10), 1000⟩)] 1500 [.num 5]).cache
      (chaveCache "m" [.num 5]) = some ⟨.plain (.num 10), 2500⟩ :=
  cache_expired_reinvokes_and_refreshes 1000 "m" (fun _ _ => .ok (.plain (.num 10))) 0
    [(chaveCache "m" [.num 5], ⟨.plain (.num 10), 1000⟩)] 1500 [.num 5]
    ⟨.plain (.num 10), 1000⟩ (.plain (.num 10)) rfl (by decide) rfl

/-- **C6** counterexample.  With deep-equal arguments whose object fields
were inserted in a different order, the call after expiry computes a
different key, so the stale entry under the original key is *not* removed —
it is still present after the call, refuting "removes the stale entry" as
stated for deep-equal arguments. -/
theorem cache_expired_stale_entry_not_removed :
    deepEqualArgs [.obj [("a", .num 1), ("b", .num 2)]]
      [.obj [("b", .num 2), ("a", .num 1)]] ∧
    (1000 : Int) ≤ 1500 ∧
    mapGet (cacheInvoke 1000 "m" (fun _ _ => .ok (.plain (.num 10))) 0
        [(chaveCache "m" [.obj [("a", .num 1), ("b", .num 2)]], ⟨.plain (.num 10), 1000⟩)]
        1500 [.obj [("b", .num 2), ("a", .num 1)]]).cache
      (chaveCache "m" [.obj [("a", .num 1), ("b", .num 2)]]) =
      some ⟨.plain (.num 10), 1000⟩ :=
  ⟨rfl, by decide, rfl⟩

/-- **C1** (amended).  If invoking the operation *throws synchronously*,
the failure propagates to the caller, no entry is stored under the key for
the arguments, and a subsequent identical call invokes the operation again.
(As originally stated over every failing operation the claim fails: an
asynchronous operation that returns a rejected pending result does not
throw, so the rejected handle is stored like any value — see the
counterexample.) -/
theorem cache_sync_failure_not_stored (ttl : Int) (key : String)
    (original : Nat → List JSON → Except String Val) (self : Nat)
    (cache : CacheMap) (now now2 : Int) (args : List JSON) (e : String)
    (herr : original self args = .error e)
    (hstale : ∀ item, mapGet cache (chaveCache key args) = some item → item.expira ≤ now) :
    (cacheInvoke ttl key original self cache now args).result = .error e ∧
    (cacheInvoke ttl key original self cache now args).opCalled = true ∧
    mapGet (cacheInvoke ttl key original self cache now args).cache (chaveCache key args) =
      none ∧
    (cacheInvoke ttl key original self
      (cacheInvoke ttl key original self cache now args).cache now2 args).opCalled = true := by
  rcases hget : mapGet cache (chaveCache key args) with _ | item
  · have h := cacheInvoke_miss_err ttl key original self cache now args e hget herr
    rw [h]
    refine ⟨rfl, rfl, hget, ?_⟩
    rw [cacheInvoke_miss_err ttl key original self cache now2 args e hget herr]
  · have h := cacheInvoke_expired_err ttl key original self cache now args item e hget
      (hstale item hget) herr
    rw [h]
    refine ⟨rfl, rfl, mapGet_mapDelete_self _ _, ?_⟩
    rw [cacheInvoke_miss_err ttl key original self _ now2 args e
      (mapGet_mapDelete_self _ _) herr]

/-- Witness for the C1 theorem: an operation that always throws `"boom"`,
called on an empty cache at `t = 0` and again at `t = 500`. -/
theorem cache_sync_failure_not_stored_witness :
    (cacheInvoke 1000 "m" (fun _ _ => .error "boom") 0 [] 0 [.num 5]).result =
      .error "boom" ∧
    (cacheInvoke 1000 "m" (fun _ _ => .error "boom") 0 [] 0 [.num 5]).opCalled = true ∧
    mapGet (cacheInvoke 1000 "m" (fun _ _ => .error "boom") 0 [] 0 [.num 5]).cache
      (chaveCache "m" [.num 5]) = none ∧
    (cacheInvoke 1000 "m" (fun _ _ => .error "boom") 0
      (cacheInvoke 1000 "m" (fun _ _ => .error "boom") 0 [] 0 [.num 5]).cache
      500 [.num 5]).opCalled = true :=
  cache_sync_failure_not_stored 1000 "m" (fun _ _ => .error "boom") 0 [] 0 500 [.num 5]
    "boom" rfl (fun _ h => Option.noConfusion h)

/-- **C1** counterexample.  An asynchronous operation whose returned pending
result is rejected: the invocation "fails" in the sense of the claim, yet
the wrapper stores the rejected pending handle under the key, and a
subsequent identical call within the TTL does *not* invoke the operation
again — it returns the stored rejected handle. -/
theorem cache_async_rejection_is_cached :
    opFails ((fun (_ : Nat) (_ : List JSON) =>
      (.ok (.prom 0 (.error "boom")) : Except String Val)) 0 [.num 5]) = true ∧
    mapGet (cacheInvoke 1000 "m" (fun _ _ => .ok (.prom 0 (.error "boom"))) 0 [] 0
        [.num 5]).cache (chaveCache "m" [.num 5]) =
      some ⟨.prom 0 (.error "boom"), 1000⟩ ∧
    (cacheInvoke 1000 "m" (fun _ _ => .ok (.prom 0 (.error "boom"))) 0
        (cacheInvoke 1000 "m" (fun _ _ => .ok (.prom 0 (.error "boom"))) 0 [] 0
          [.num 5]).cache 500 [.num 5]).opCalled = false ∧
    (cacheInvoke 1000 "m" (fun _ _ => .ok (.prom 0 (.error "boom"))) 0
        (cacheInvoke 1000 "m" (fun _ _ => .ok (.prom 0 (.error "boom"))) 0 [] 0
          [.num 5]).cache 500 [.num 5]).result = .ok (.prom 0 (.error "boom")) :=
  ⟨rfl, rfl, rfl, rfl⟩

/-- **C2** (amended).  Two invocations of a `Cache`-wrapped method compute
the same cache key exactly when their argument lists have the same
`JSON.stringify` serialization; deep equality alone does not suffice,
because the serialization keeps object fields in insertion order (see the
counterexample). -/
theorem chaveCache_eq_iff_stringify_eq (key : String) (args1 args2 : List JSON) :
    chaveCache key args1 = chaveCache key args2 ↔
      stringify (.arr args1) = stringify (.arr args2) := by
  constructor
  · intro h
    simp only [chaveCache] at h
    have h2 : (key ++ ":" ++ stringify (.arr args1)).data =
        (key ++ ":" ++ stringify (.arr args2)).data := by rw [h]
    rw [String.data_append, String.data_append] at h2
    exact String.ext (List.append_cancel_left h2)
  · intro h
    simp only [chaveCache, h]

/-- **C2** counterexample.  `{a: 1, b: 2}` and `{b: 2, a: 1}` are deep-equal
argument structures, but their keys differ, because `JSON.stringify`
serializes object fields in insertion order. -/
theorem cache_key_not_insertion_order_stable :
    deepEqualArgs [.obj [("a", .num 1), ("b", .num 2)]]
      [.obj [("b", .num 2), ("a", .num 1)]] ∧
    chaveCache "m" [.obj [("a", .num 1), ("b", .num 2)]] ≠
      chaveCache "m" [.obj [("b", .num 2), ("a", .num 1)]] :=
  ⟨rfl, by decide⟩

/-- **C10.** The per-decoration cache map is shared by all instances of the
class and the receiver is not part of the cache key: after instance `a`
populates the cache, a call on any other instance `b` with arguments having
the same serialization, within the TTL, returns the value computed and
cached by `a` without invoking the operation — whatever the operation would
have produced for receiver `b`. -/
theorem cache_shared_across_instances (ttl : Int) (key : String)
    (original : Nat → List JSON → Except String Val) (a b : Nat)
    (cache : CacheMap) (now now2 : Int) (args : List JSON) (v : Val)
    (hmiss : mapGet cache (chaveCache key args) = none)
    (hok : original a args = .ok v)
    (hfresh : now2 < now + ttl) :
    cacheInvoke ttl key original b (cacheInvoke ttl key original a cache now args).cache
        now2 args =
      ⟨.ok v, (cacheInvoke ttl key original a cache now args).cache, false⟩ := by
  have h1 := cacheInvoke_miss_ok ttl key original a cache now args v hmiss hok
  rw [h1]
  exact cacheInvoke_hit ttl key original b _ now2 args ⟨v, now + ttl⟩
    (mapGet_mapSet_self _ _ _) hfresh

/-- Witness for the C10 theorem: the operation returns its receiver's id,
instance `0` populates the cache, and the call on instance `1` at `t = 500`
gets instance `0`'s value without any invocation. -/
theorem cache_shared_across_instances_witness :
    cacheInvoke 1000 "m" (fun s _ => .ok (.plain (.num s))) 1
        (cacheInvoke 1000 "m" (fun s _ => .ok (.plain (.num s))) 0 [] 0 [.num 5]).cache
        500 [.num 5] =
      ⟨.ok (.plain (.num 0)),
       (cacheInvoke 1000 "m" (fun s _ => .ok (.plain (.num s))) 0 [] 0 [.num 5]).cache,
       false⟩ :=
  cache_shared_across_instances 1000 "m" (fun s _ => .ok (.plain (.num s))) 0 1 [] 0 500
    [.num 5] (.plain (.num 0)) rfl rfl (by decide)

/-- **C9** (amended).  Neither `retry` nor `Cache` validates its
configuration; no `InvalidConfiguration`-style error exists.  Instead:
`retries ≤ 0` makes `retry` throw the generic internal fall-through error
at once (with the operation never invoked); a negative `delay` is accepted
and simply passed to the wait between attempts, the run proceeding
normally; and a negative `ttl` is accepted by `Cache`, the invocation
succeeding and storing an entry that is already expired at the moment it is
written (so every later call misses). -/
theorem invalid_config_not_validated {α : Type} (fn : Nat → Except String α)
    (retries delay ttl now : Int) (key : String)
    (original : Nat → List JSON → Except String Val) (self : Nat)
    (cache : CacheMap) (args : List JSON) (v : Val) (w : α) :
    (retries ≤ 0 → retry fn retries delay = ([], .error falhaInesperada)) ∧
    (isErr (fn 0) = true → fn 1 = .ok w →
      retry fn 2 delay = ([.call 0, .wait delay, .call 1], .ok w)) ∧
    (ttl < 0 → mapGet cache (chaveCache key args) = none → original self args = .ok v →
      (cacheInvoke ttl key original self cache now args).result = .ok v ∧
      mapGet (cacheInvoke ttl key original self cache now args).cache (chaveCache key args) =
        some ⟨v, now + ttl⟩ ∧
      now + ttl < now) := by
  refine ⟨?_, ?_, ?_⟩
  · intro h
    have h0 : retries.toNat = 0 := by omega
    simp only [retry, h0]
    rfl
  · intro h1 h2
    obtain ⟨e, he⟩ := (isErr_true_iff (fn 0)).mp h1
    have ht : (2 : Int).toNat = 2 := rfl
    simp [retry, ht, retryLoop, he, h2]
  · intro h1 h2 h3
    rw [cacheInvoke_miss_ok ttl key original self cache now args v h2 h3]
    exact ⟨rfl, mapGet_mapSet_self _ _ _, by omega⟩

/-- Witness for the C9 theorem: `retries = 0`, `delay = -5` and
`ttl = -100` are all accepted. -/
theorem invalid_config_not_validated_witness :
    retry (fun _ => (.ok "x" : Except String String)) 0 1000 =
      ([], .error falhaInesperada) ∧
    retry (fun i => if i = 0 then .error "Error: e1" else .ok "x") 2 (-5) =
      ([.call 0, .wait (-5), .call 1], .ok "x") ∧
    ((cacheInvoke (-100) "m" (fun _ _ => .ok (.plain (.num 42))) 0 [] 0 [.num 5]).result =
      .ok (.plain (.num 42)) ∧
     mapGet (cacheInvoke (-100) "m" (fun _ _ => .ok (.plain (.num 42))) 0 [] 0
        [.num 5]).cache (chaveCache "m" [.num 5]) = some ⟨.plain (.num 42), 0 + (-100)⟩ ∧
     (0 : Int) + (-100) < 0) :=
  ⟨(invalid_config_not_validated (fun _ => (.ok "x" : Except String String)) 0 1000 (-100) 0
      "m" (fun _ _ => .ok (.plain (.num 42))) 0 [] [.num 5] (.plain (.num 42)) "x").1
    (by decide),
   (invalid_config_not_validated (fun i => if i = 0 then .error "Error: e1" else .ok "x")
      2 (-5) (-100) 0 "m" (fun _ _ => .ok (.plain (.num 42))) 0 [] [.num 5]
      (.plain (.num 42)) "x").2.1 rfl rfl,
   (invalid_config_not_validated (fun _ => (.ok "x" : Except String String)) 0 1000 (-100) 0
      "m" (fun _ _ => .ok (.plain (.num 42))) 0 [] [.num 5] (.plain (.num 42)) "x").2.2
    (by decide) rfl rfl⟩

/-- **C9** counterexample.  The claim says an invalid configuration fails
fast with an `InvalidConfiguration`-style error; but a `Cache` wrapper with
`ttl = -100` returns the operation's value without any error, and `retry`
with a negative `delay` proceeds through the wait and returns the success. -/
theorem invalid_config_accepted_counterexample :
    (cacheInvoke (-100) "m" (fun _ _ => .ok (.plain (.num 42))) 0 [] 0 [.num 5]).result =
      .ok (.plain (.num 42)) ∧
    (retry (fun i => if i = 0 then .error "Error: e1" else .ok "done") 3 (-5)).2 =
      .ok "done" :=
  ⟨rfl, rfl⟩
